import Mathlib

/-!
# MassAudit_Pro — verification of the core components

Shallow embedding of the call governor (`MassAudit_Pro/core/api_caller.py`),
the source context resolver (`MassAudit_Pro/core/context_resolver.py`) and the
self-healing verification loop plus quota gate of `main.py`, with theorems
checking the specified properties against the embedded code.
-/

namespace MassAudit

/-! ## Call governor (`api_caller.py`)

`APICaller` keeps two process-wide class attributes: `_consecutive_api_errors`
and `_circuit_breaker_tripped`.  `_call_deepseek_api` first raises when the
breaker is tripped, otherwise invokes the endpoint; a success resets the error
counter to zero, a transient error (`APIConnectionError` / `APITimeoutError` /
`APIStatusError`) or any unexpected exception increments it and trips the
breaker once the counter reaches `MAX_API_ERROR_COUNT`.
-/

/-- `MAX_API_ERROR_COUNT` from `config.py`. -/
def MAX_API_ERROR_COUNT : Nat := 5

/-- `MAX_CALLS_PER_PROJECT` from `config.py`. -/
def MAX_CALLS_PER_PROJECT : Nat := 100

/-- The process-wide mutable state of `APICaller`
(`_consecutive_api_errors`, `_circuit_breaker_tripped`). -/
structure CallState where
  consecutiveErrors : Nat
  tripped : Bool
  deriving Repr, DecidableEq

/-- Initial class-attribute values of `APICaller`. -/
def initCallState : CallState := ⟨0, false⟩

/-- One outcome of the underlying endpoint invocation:
a success, a transient error (one of the three retryable exception types),
or an unexpected exception. -/
inductive ApiResult where
  | ok
  | transient
  | unexpected
  deriving Repr, DecidableEq

/-- Errors that one execution of the `_call_deepseek_api` body can raise. -/
inductive ApiError where
  | circuitTripped
  | transientError
  | unexpectedError
  deriving Repr, DecidableEq

deriving instance DecidableEq for Except

/-- Result of executing the body of `_call_deepseek_api` once:
the new process-wide state, the returned value or raised exception, and
whether the underlying endpoint (`client.chat.completions.create`)
was actually invoked. -/
structure AttemptOutcome where
  state : CallState
  result : Except ApiError Unit
  invoked : Bool
  deriving Repr, DecidableEq

/-- The body of `APICaller._call_deepseek_api` (lines 48-77), executed once
with the endpoint behaving as `r`: the tripped check comes first and raises
without touching the endpoint; a success resets `_consecutive_api_errors`;
a failure increments it and sets `_circuit_breaker_tripped` once the count
reaches `MAX_API_ERROR_COUNT`. -/
def call_deepseek_attempt (st : CallState) (r : ApiResult) : AttemptOutcome :=
  if st.tripped then
    ⟨st, .error .circuitTripped, false⟩
  else
    match r with
    | .ok => ⟨⟨0, st.tripped⟩, .ok (), true⟩
    | .transient =>
        let n := st.consecutiveErrors + 1
        ⟨⟨n, if MAX_API_ERROR_COUNT ≤ n then true else st.tripped⟩,
          .error .transientError, true⟩
    | .unexpected =>
        let n := st.consecutiveErrors + 1
        ⟨⟨n, if MAX_API_ERROR_COUNT ≤ n then true else st.tripped⟩,
          .error .unexpectedError, true⟩

/-- State transition of one underlying attempt. -/
def stepState (st : CallState) (r : ApiResult) : CallState :=
  (call_deepseek_attempt st r).state

/-- Process-wide state after a sequence of underlying attempts. -/
def runCalls (st : CallState) (rs : List ApiResult) : CallState :=
  rs.foldl stepState st

/-- Tenacity `wait_exponential(multiplier, min, max)` evaluated at attempt
number `n` (1-based), as in tenacity's source:
`max(max(0, min), min(multiplier * exp_base ** attempt_number, max))`. -/
def waitExponential (multiplier minW maxW n : Nat) : Nat :=
  max (max 0 minW) (min (multiplier * 2 ^ n) maxW)

/-- Result of one governed call through the tenacity retry wrapper:
final process state, final result, number of attempts made by the wrapper,
number of actual endpoint invocations, and the backoff waits slept between
attempts (in order). -/
structure RetryRun where
  finalState : CallState
  result : Except ApiError Unit
  attempts : Nat
  invocations : Nat
  waits : List Nat
  deriving Repr, DecidableEq

/-- The tenacity retry loop around `_call_deepseek_api`
(`wait_exponential(multiplier=1, min=4, max=10)`, `stop_after_attempt(5)`,
retrying only the three transient exception types).  `fuel` is the number of
retries still allowed, `n` the 1-based attempt number, and `f` maps each
attempt number to the endpoint's behaviour on that attempt. -/
def retryAux (f : Nat → ApiResult) : Nat → Nat → CallState → RetryRun
  | 0, n, st =>
      let o := call_deepseek_attempt st (f n)
      ⟨o.state, o.result, 1, if o.invoked then 1 else 0, []⟩
  | fuel + 1, n, st =>
      let o := call_deepseek_attempt st (f n)
      match o.result with
      | .ok _ => ⟨o.state, o.result, 1, if o.invoked then 1 else 0, []⟩
      | .error .transientError =>
          let w := waitExponential 1 4 10 n
          let rest := retryAux f fuel (n + 1) o.state
          ⟨rest.finalState, rest.result, rest.attempts + 1,
            rest.invocations + (if o.invoked then 1 else 0), w :: rest.waits⟩
      | .error e => ⟨o.state, .error e, 1, if o.invoked then 1 else 0, []⟩

/-- `APICaller.call_llm` (lines 89-94): raise `RuntimeError` at once when the
breaker is tripped — before `_call_deepseek_api` and its retry wrapper are
ever entered — otherwise run the tenacity-wrapped call (at most 5 attempts,
so 4 retries after the first attempt). -/
def call_llm (st : CallState) (f : Nat → ApiResult) : RetryRun :=
  if st.tripped then ⟨st, .error .circuitTripped, 0, 0, []⟩
  else retryAux f 4 1 st

/-! ## Context resolver (`context_resolver.py`)

Strings are modelled as `List Char`; Python's `len`, slicing, `split`,
`strip` and membership map to the corresponding list operations.
-/

/-- `FILE_SIZE_LIMIT_MB * 1024 * 1024` with `FILE_SIZE_LIMIT_MB = 1`
(`config.py`): the read ceiling in bytes. -/
def FILE_SIZE_LIMIT_BYTES : Nat := 1 * 1024 * 1024

/-- The marker `ContextResolver._read_file_content` appends after
truncating an oversized file. -/
def truncMarker : List Char := "\n[WARNING: File too large, truncated]\n".data

/-- `ContextResolver._read_file_content` (lines 28-40) on a readable file
with the given content: when the size exceeds the ceiling, read only the
first `FILE_SIZE_LIMIT_BYTES` characters and append the truncation marker;
otherwise return the whole content.  (`size_bytes / 1MB > 1` holds exactly
when `size_bytes > 1048576`.) -/
def read_file_content (content : List Char) : List Char :=
  if FILE_SIZE_LIMIT_BYTES < content.length then
    content.take FILE_SIZE_LIMIT_BYTES ++ truncMarker
  else content

/-- Python `str.strip()`: drop whitespace from both ends. -/
def pyStrip (s : List Char) : List Char :=
  ((s.dropWhile Char.isWhitespace).reverse.dropWhile Char.isWhitespace).reverse

/-- Python `s.split("(")[0]`: the prefix before the first `(`. -/
def beforeFirstParen (s : List Char) : List Char :=
  s.takeWhile (· ≠ '(')

/-- Python `s.split(".")[-1]`: the suffix after the last `.`. -/
def afterLastDot (s : List Char) : List Char :=
  (s.reverse.takeWhile (· ≠ '.')).reverse

/-- `ContextResolver._clean_function_name` (lines 45-60): strip a trailing
call-argument list (everything from the first `(`), then, if a `.` remains,
keep only the segment after the last `.`; the result is `strip`ped. -/
def clean_function_name (s : List Char) : List Char :=
  let s1 := if '(' ∈ s then beforeFirstParen s else s
  if '.' ∈ s1 then pyStrip (afterLastDot s1) else pyStrip s1

/-! ## Self-healing verification loop (`main.py`, `AuditSystem.run_audit`)

The per-finding verification session (lines 321-398): the PoC text is
materialized to an artifact file, then up to `MAX_FIX_ATTEMPTS + 1` attempts
each copy the PoC next to the target sources and run `go test`; compile /
environment failures are repaired via `fix_poc_code` (routed through the
governor), a timeout is terminal, and a clean run goes to the AI judge.
The external build/execute facility is a script mapping the attempt index
to its outcome; repair and judge are function parameters.
-/

/-- `MAX_FIX_ATTEMPTS` (`main.py` line 337). -/
def MAX_FIX_ATTEMPTS : Nat := 8

/-- Outcome of one `subprocess.run` of the build/execute command:
either the 15-second wall-clock timeout fired, or it finished with the
given combined stdout+stderr output. -/
inductive ExecOutcome where
  | timeout
  | finished (out : List Char)
  deriving Repr, DecidableEq

/-- The ordered compile/environment failure markers (`main.py` lines 354-357). -/
def compileErrorMarkers : List (List Char) :=
  ["build failed", "undefined:", "imported and not used",
   "no required module", "cannot find package", "setup failed"].map String.data

/-- `is_compile_error = any(e in output for e in compile_errors)`
(`main.py` line 358): some marker occurs as a substring of the output. -/
def isCompileError (out : List Char) : Bool :=
  compileErrorMarkers.any (fun m => decide (m <:+: out))

/-- Terminal status recorded in `analysis_result['verify_status']`:
`SKIPPED` (preset), `TIMEOUT`, `COMPILATION_FAILED`, or the status string
returned by the AI judge together with its reason (the `CLASSIFIED`
terminal state). -/
inductive VerifyStatus where
  | skipped
  | timedOut
  | compilationFailed
  | judged (status reason : List Char)
  deriving Repr, DecidableEq

/-- State of one verification session when it ends: the recorded fields of
`analysis_result`, the number of `fix_poc_code` invocations, the code
produced by the last repair (if any), the current content of the PoC
artifact in the scratch directory, the number of build/execute attempts
made, and the file names present in the target source directory. -/
structure SessionResult where
  status : VerifyStatus
  output : List Char
  fix_attempts : Nat
  fixCalls : Nat
  lastFixed : Option (List Char)
  artifact : List Char
  attemptsMade : Nat
  targetFiles : List (List Char)
  deriving Repr, DecidableEq

/-- `cp poc_save_path target_source_dir/` (`main.py` lines 343-344):
place a file with the given name in the directory, overwriting any
existing one (the name set gains `name` if absent). -/
def copyIn (fs : List (List Char)) (name : List Char) : List (List Char) :=
  if name ∈ fs then fs else name :: fs

/-- `os.remove` wrapped in `try/except pass` (`main.py` lines 396-398):
remove the file if present, otherwise do nothing. -/
def removeFile (fs : List (List Char)) (name : List Char) : List (List Char) :=
  fs.erase name

/-- The attempt loop `for attempt in range(MAX_FIX_ATTEMPTS + 1)`
(`main.py` lines 340-391).  `fuel` is the number of iterations still
allowed after the current one (`MAX_FIX_ATTEMPTS - attempt`), `code` the
current PoC text (also the artifact content: the artifact is rewritten at
every repair), `recorded` the current `fix_attempts` field, `fixes` the
number of repair calls so far, `lastF` the last repaired code, and `fs`
the target directory's file names. -/
def sessionAux (script : Nat → ExecOutcome)
    (fixPoc : List Char → List Char → List Char)
    (judge : List Char → List Char × List Char) (pocName : List Char) :
    Nat → Nat → List Char → Nat → Nat → Option (List Char) →
    List (List Char) → SessionResult
  | 0, attempt, code, recorded, fixes, lastF, fs =>
    let fs1 := copyIn fs pocName
    match script attempt with
    | .timeout =>
        ⟨.timedOut, "Execution timed out.".data, recorded, fixes, lastF,
          code, attempt + 1, fs1⟩
    | .finished out =>
        if isCompileError out then
          ⟨.compilationFailed, out, attempt, fixes, lastF, code,
            attempt + 1, fs1⟩
        else
          let j := judge out
          ⟨.judged j.1 j.2, out, recorded, fixes, lastF, code,
            attempt + 1, fs1⟩
  | fuel + 1, attempt, code, recorded, fixes, lastF, fs =>
    let fs1 := copyIn fs pocName
    match script attempt with
    | .timeout =>
        ⟨.timedOut, "Execution timed out.".data, recorded, fixes, lastF,
          code, attempt + 1, fs1⟩
    | .finished out =>
        if isCompileError out then
          let fixed := fixPoc code out
          sessionAux script fixPoc judge pocName fuel (attempt + 1)
            fixed (attempt + 1) (fixes + 1) (some fixed) fs1
        else
          let j := judge out
          ⟨.judged j.1 j.2, out, recorded, fixes, lastF, code,
            attempt + 1, fs1⟩

/-- One verification session (`main.py` lines 321-398): run the attempt
loop starting from the drafted PoC text, then remove the copy placed next
to the target sources (the artifact in the scratch directory is kept). -/
def runSession (script : Nat → ExecOutcome)
    (fixPoc : List Char → List Char → List Char)
    (judge : List Char → List Char × List Char)
    (pocName code : List Char) (fs : List (List Char)) : SessionResult :=
  let r := sessionAux script fixPoc judge pocName MAX_FIX_ATTEMPTS 0 code 0 0 none fs
  { r with targetFiles := removeFile r.targetFiles pocName }

/-! ## Per-project findings loop and quota gate (`main.py`)

Lines 280-405: for each SARIF result in order, the loop first checks
`PROJECT_API_CALL_COUNTS.get(project_name, 0) >= MAX_CALLS_PER_PROJECT`
and `break`s when the ceiling is reached; otherwise it analyzes the
finding (which performs the governed calls and updates the counter) and
appends the analysis record to `project_vulnerabilities`.  `analyze`
abstracts `vulnerability_analyzer.analyze_vulnerability` plus verification:
given the current counter and a finding it yields the new counter and the
recorded outcome. -/

/-- The findings loop of `AuditSystem.run_audit` restricted to the quota
gate (`main.py` lines 280, 297, 302, 403): returns the list of recorded
outcomes and the number of `analyze` invocations (each of which is what
issues governed calls). -/
def findings_loop {F R : Type} (analyze : Nat → F → Nat × R) :
    Nat → List F → List R × Nat
  | _, [] => ([], 0)
  | count, f :: rest =>
    if MAX_CALLS_PER_PROJECT ≤ count then ([], 0)
    else
      let a := analyze count f
      let r := findings_loop analyze a.1 rest
      (a.2 :: r.1, r.2 + 1)

/-! ## Theorems: call governor -/

/-- C1: for every sequence of `N` consecutive transient failures with
`N` below `MAX_API_ERROR_COUNT`, the breaker stays unset; at the threshold
it is set; once set it stays set under every further call; and a success
resets only the consecutive-error counter, never the tripped flag. -/
theorem claim_C1 :
    (∀ n, n < MAX_API_ERROR_COUNT →
      (runCalls initCallState (List.replicate n ApiResult.transient)).tripped
        = false) ∧
    (runCalls initCallState
      (List.replicate MAX_API_ERROR_COUNT ApiResult.transient)).tripped
        = true ∧
    (∀ st r, st.tripped = true → (stepState st r).tripped = true) ∧
    (∀ st, (stepState st ApiResult.ok).tripped = st.tripped ∧
      (st.tripped = false →
        (stepState st ApiResult.ok).consecutiveErrors = 0)) := by
  refine ⟨by decide, by decide, ?_, ?_⟩
  · intro st r h
    cases r <;> simp [stepState, call_deepseek_attempt, h]
  · intro st
    by_cases h : st.tripped <;>
      simp [stepState, call_deepseek_attempt, h]

/-- Witness for C1 at concrete inputs: three failures leave the breaker
closed, and a tripped state stays tripped across a further call. -/
theorem claim_C1_witness :
    (3 < MAX_API_ERROR_COUNT ∧
      (runCalls initCallState (List.replicate 3 ApiResult.transient)).tripped
        = false) ∧
    ((⟨2, true⟩ : CallState).tripped = true ∧
      (stepState ⟨2, true⟩ ApiResult.ok).tripped = true) :=
  ⟨⟨by decide, claim_C1.1 3 (by decide)⟩,
    ⟨rfl, claim_C1.2.2.1 ⟨2, true⟩ ApiResult.ok rfl⟩⟩

/-- C2: a `call_llm` submitted while the breaker is tripped raises the
circuit-open error at once, leaves the state unchanged, and never invokes
the underlying endpoint (zero attempts, zero invocations). -/
theorem claim_C2 (st : CallState) (f : Nat → ApiResult)
    (h : st.tripped = true) :
    call_llm st f = ⟨st, .error .circuitTripped, 0, 0, []⟩ := by
  simp [call_llm, h]

/-- Witness for C2 with a concrete tripped state and an endpoint that
would succeed. -/
theorem claim_C2_witness :
    (⟨0, true⟩ : CallState).tripped = true ∧
    call_llm ⟨0, true⟩ (fun _ => ApiResult.ok)
      = ⟨⟨0, true⟩, .error .circuitTripped, 0, 0, []⟩ :=
  ⟨rfl, claim_C2 ⟨0, true⟩ (fun _ => ApiResult.ok) rfl⟩

/-- The retry wrapper makes at most `fuel + 1` attempts and its waits are a
prefix of the tenacity schedule `waitExponential 1 4 10` evaluated at the
successive attempt numbers. -/
theorem retryAux_bounds (f : Nat → ApiResult) :
    ∀ fuel n st, (retryAux f fuel n st).attempts ≤ fuel + 1 ∧
      (retryAux f fuel n st).waits <+:
        (List.range fuel).map (fun k => waitExponential 1 4 10 (n + k)) := by
  intro fuel
  induction fuel with
  | zero =>
      intro n st
      exact ⟨Nat.le_refl _, List.nil_prefix⟩
  | succ fuel ih =>
      intro n st
      simp only [retryAux]
      split
      · exact ⟨Nat.succ_le_succ (Nat.zero_le _), List.nil_prefix⟩
      · have h := ih (n + 1) (call_deepseek_attempt st (f n)).state
        refine ⟨Nat.succ_le_succ h.1, ?_⟩
        have hrange : (List.range (fuel + 1)).map
            (fun k => waitExponential 1 4 10 (n + k))
            = waitExponential 1 4 10 n ::
              (List.range fuel).map
                (fun k => waitExponential 1 4 10 (n + 1 + k)) := by
          rw [List.range_succ_eq_map, List.map_cons, List.map_map]
          refine congrArg₂ _ (congrArg _ (by omega)) ?_
          refine List.map_congr_left fun k _ => ?_
          simp only [Function.comp]
          exact congrArg _ (by omega)
        rw [hrange]
        exact List.cons_prefix_cons.mpr ⟨rfl, h.2⟩
      · exact ⟨Nat.succ_le_succ (Nat.zero_le _), List.nil_prefix⟩

/-- C7 (amended): every governed call makes at most five attempts and the
waits slept between attempts follow tenacity's clamped schedule
`max(min, min(max, multiplier * 2 ^ attempt))` with multiplier 1, lower
clamp 4 and upper clamp 10, at attempt numbers 1, 2, 3, 4 — that is, the
wait sequence is a prefix of `[4, 4, 8, 10]`. -/
theorem claim_C7_amended (st : CallState) (f : Nat → ApiResult) :
    (call_llm st f).attempts ≤ 5 ∧
    (call_llm st f).waits <+:
      [waitExponential 1 4 10 1, waitExponential 1 4 10 2,
       waitExponential 1 4 10 3, waitExponential 1 4 10 4] := by
  by_cases h : st.tripped
  · refine ⟨?_, ?_⟩ <;> simp [call_llm, h]
  · have hb := retryAux_bounds f 4 1 st
    have hlist : (List.range 4).map (fun k => waitExponential 1 4 10 (1 + k))
        = [waitExponential 1 4 10 1, waitExponential 1 4 10 2,
           waitExponential 1 4 10 3, waitExponential 1 4 10 4] := rfl
    rw [hlist] at hb
    simpa [call_llm, h] using hb

/-- C7 (counterexample to the claimed formula): an endpoint that fails
transiently on every attempt yields the wait sequence `[4, 4, 8, 10]`, and
no base value makes the claimed formula `min(maxWait, base * 2 ^ attempt)`
reproduce it — under either attempt-numbering convention — because the
first two waits are both 4 while the claimed formula would have to double
below the cap. -/
theorem claim_C7_counterexample :
    (call_llm initCallState (fun _ => ApiResult.transient)).waits
      = [4, 4, 8, 10] ∧
    (¬ ∃ b : Nat,
      (call_llm initCallState (fun _ => ApiResult.transient)).waits
        = [min 10 (b * 2 ^ 0), min 10 (b * 2 ^ 1),
           min 10 (b * 2 ^ 2), min 10 (b * 2 ^ 3)]) ∧
    (¬ ∃ b : Nat,
      (call_llm initCallState (fun _ => ApiResult.transient)).waits
        = [min 10 (b * 2 ^ 1), min 10 (b * 2 ^ 2),
           min 10 (b * 2 ^ 3), min 10 (b * 2 ^ 4)]) := by
  have hw : (call_llm initCallState (fun _ => ApiResult.transient)).waits
      = [4, 4, 8, 10] := by decide
  refine ⟨hw, ?_, ?_⟩
  · rintro ⟨b, hb⟩
    rw [hw] at hb
    simp only [List.cons.injEq, and_true] at hb
    norm_num at hb
    omega
  · rintro ⟨b, hb⟩
    rw [hw] at hb
    simp only [List.cons.injEq, and_true] at hb
    norm_num at hb
    omega

/-! ## Theorems: context resolver -/

/-- C5: reading a file whose size exceeds the ceiling returns the first
`FILE_SIZE_LIMIT_BYTES` characters — a prefix of the file of length at
most the ceiling — with the truncation marker appended. -/
theorem claim_C5 (c : List Char) (h : FILE_SIZE_LIMIT_BYTES < c.length) :
    read_file_content c = c.take FILE_SIZE_LIMIT_BYTES ++ truncMarker ∧
    (c.take FILE_SIZE_LIMIT_BYTES).length ≤ FILE_SIZE_LIMIT_BYTES ∧
    c.take FILE_SIZE_LIMIT_BYTES <+: c ∧
    truncMarker <:+ read_file_content c := by
  have h1 : read_file_content c
      = c.take FILE_SIZE_LIMIT_BYTES ++ truncMarker := by
    simp [read_file_content, h]
  refine ⟨h1, ?_, List.take_prefix _ _, ?_⟩
  · rw [List.length_take]
    exact min_le_left _ _
  · rw [h1]
    exact List.suffix_append _ _

/-- Witness for C5 on a concrete file one character over the ceiling. -/
theorem claim_C5_witness :
    FILE_SIZE_LIMIT_BYTES
      < (List.replicate (FILE_SIZE_LIMIT_BYTES + 1) 'a').length ∧
    (read_file_content (List.replicate (FILE_SIZE_LIMIT_BYTES + 1) 'a')
        = (List.replicate (FILE_SIZE_LIMIT_BYTES + 1) 'a').take
            FILE_SIZE_LIMIT_BYTES ++ truncMarker ∧
      ((List.replicate (FILE_SIZE_LIMIT_BYTES + 1) 'a').take
          FILE_SIZE_LIMIT_BYTES).length ≤ FILE_SIZE_LIMIT_BYTES ∧
      (List.replicate (FILE_SIZE_LIMIT_BYTES + 1) 'a').take
          FILE_SIZE_LIMIT_BYTES
        <+: List.replicate (FILE_SIZE_LIMIT_BYTES + 1) 'a' ∧
      truncMarker <:+ read_file_content
        (List.replicate (FILE_SIZE_LIMIT_BYTES + 1) 'a')) :=
  ⟨by simp, claim_C5 _ (by simp)⟩

/-- The open parenthesis never survives `beforeFirstParen`. -/
theorem paren_not_mem_beforeFirstParen (s : List Char) :
    '(' ∉ beforeFirstParen s := by
  intro hmem
  have := List.mem_takeWhile_imp hmem
  simp at this

/-- The dot never survives `afterLastDot`. -/
theorem dot_not_mem_afterLastDot (s : List Char) :
    '.' ∉ afterLastDot s := by
  intro hmem
  rw [afterLastDot, List.mem_reverse] at hmem
  have := List.mem_takeWhile_imp hmem
  simp at this

/-- `afterLastDot` only returns characters of its input. -/
theorem afterLastDot_subset (s : List Char) : afterLastDot s ⊆ s := by
  intro a ha
  rw [afterLastDot, List.mem_reverse] at ha
  have h2 := (List.takeWhile_prefix _).sublist.subset ha
  rw [List.mem_reverse] at h2
  exact h2

/-- `pyStrip` only returns characters of its input. -/
theorem pyStrip_subset (s : List Char) : pyStrip s ⊆ s := by
  intro a ha
  rw [pyStrip, List.mem_reverse] at ha
  have h1 := (List.dropWhile_suffix _).sublist.subset ha
  rw [List.mem_reverse] at h1
  exact (List.dropWhile_suffix _).sublist.subset h1

/-- `dropWhile` is idempotent. -/
theorem dropWhile_idem (p : Char → Bool) (l : List Char) :
    List.dropWhile p (List.dropWhile p l) = List.dropWhile p l := by
  induction l with
  | nil => simp
  | cons a l ih =>
      by_cases h : p a
      · simp [List.dropWhile_cons, h, ih]
      · simp [List.dropWhile_cons, h]

/-- A list fixed by `dropWhile` has every prefix fixed by `dropWhile`. -/
theorem dropWhile_eq_self_of_prefix (p : Char → Bool) {l m : List Char}
    (hl : List.dropWhile p l = l) (hm : m <+: l) :
    List.dropWhile p m = m := by
  cases m with
  | nil => simp
  | cons a t =>
      obtain ⟨r, rfl⟩ := hm
      rw [List.cons_append, List.dropWhile_cons] at hl
      rw [List.dropWhile_cons]
      by_cases h : p a
      · rw [if_pos h] at hl
        have hlen := congrArg List.length hl
        have hle := ((List.dropWhile_suffix p
          (l := t ++ r)).sublist).length_le
        simp only [List.length_cons] at hlen
        omega
      · rw [if_neg h]

/-- `pyStrip` is idempotent. -/
theorem pyStrip_idem (s : List Char) : pyStrip (pyStrip s) = pyStrip s := by
  have ht : List.dropWhile Char.isWhitespace
      (List.dropWhile Char.isWhitespace s)
      = List.dropWhile Char.isWhitespace s := dropWhile_idem _ s
  have hu : pyStrip s <+: List.dropWhile Char.isWhitespace s := by
    have h := List.reverse_prefix.mpr (List.dropWhile_suffix
      (l := (List.dropWhile Char.isWhitespace s).reverse)
      Char.isWhitespace)
    simpa [pyStrip] using h
  have h1 : List.dropWhile Char.isWhitespace (pyStrip s) = pyStrip s :=
    dropWhile_eq_self_of_prefix _ ht hu
  have h2 : (pyStrip s).reverse = List.dropWhile Char.isWhitespace
      (List.dropWhile Char.isWhitespace s).reverse := by
    simp [pyStrip]
  calc pyStrip (pyStrip s)
      = (List.dropWhile Char.isWhitespace
          ((List.dropWhile Char.isWhitespace (pyStrip s)).reverse)).reverse
        := rfl
    _ = (List.dropWhile Char.isWhitespace ((pyStrip s).reverse)).reverse
        := by rw [h1]
    _ = (List.dropWhile Char.isWhitespace (List.dropWhile Char.isWhitespace
          (List.dropWhile Char.isWhitespace s).reverse)).reverse
        := by rw [h2]
    _ = (List.dropWhile Char.isWhitespace
          (List.dropWhile Char.isWhitespace s).reverse).reverse
        := by rw [dropWhile_idem]
    _ = pyStrip s := by rw [← h2, List.reverse_reverse]

/-- On an input free of `(` and `.`, `_clean_function_name` is `strip`. -/
theorem clean_function_name_of_plain {s : List Char}
    (h1 : '(' ∉ s) (h2 : '.' ∉ s) :
    clean_function_name s = pyStrip s := by
  simp only [clean_function_name]
  rw [if_neg h1, if_neg h2]

/-- The output of `_clean_function_name` carries no `(`. -/
theorem paren_not_mem_clean (s : List Char) :
    '(' ∉ clean_function_name s := by
  have hs1 : '(' ∉ (if '(' ∈ s then beforeFirstParen s else s) := by
    by_cases hp : '(' ∈ s
    · rw [if_pos hp]
      exact paren_not_mem_beforeFirstParen s
    · rw [if_neg hp]
      exact hp
  simp only [clean_function_name]
  intro hmem
  by_cases hd : '.' ∈ (if '(' ∈ s then beforeFirstParen s else s)
  · rw [if_pos hd] at hmem
    exact hs1 (afterLastDot_subset _ (pyStrip_subset _ hmem))
  · rw [if_neg hd] at hmem
    exact hs1 (pyStrip_subset _ hmem)

/-- The output of `_clean_function_name` carries no `.`. -/
theorem dot_not_mem_clean (s : List Char) :
    '.' ∉ clean_function_name s := by
  simp only [clean_function_name]
  intro hmem
  by_cases hd : '.' ∈ (if '(' ∈ s then beforeFirstParen s else s)
  · rw [if_pos hd] at hmem
    exact dot_not_mem_afterLastDot _ (pyStrip_subset _ hmem)
  · rw [if_neg hd] at hmem
    exact hd (pyStrip_subset _ hmem)

/-- C9: `_clean_function_name` is idempotent on every input, and it maps
the spec's examples `g.writeHeader(a)` to `writeHeader` and
`http.ServeContent` to `ServeContent`. -/
theorem claim_C9 :
    (∀ s : List Char,
      clean_function_name (clean_function_name s)
        = clean_function_name s) ∧
    clean_function_name "g.writeHeader(a)".data = "writeHeader".data ∧
    clean_function_name "http.ServeContent".data = "ServeContent".data := by
  refine ⟨?_, by decide, by decide⟩
  intro s
  have ⟨t, ht⟩ : ∃ t, clean_function_name s = pyStrip t := by
    simp only [clean_function_name]
    by_cases hd : '.' ∈ (if '(' ∈ s then beforeFirstParen s else s)
    · rw [if_pos hd]
      exact ⟨_, rfl⟩
    · rw [if_neg hd]
      exact ⟨_, rfl⟩
  rw [clean_function_name_of_plain (paren_not_mem_clean s)
    (dot_not_mem_clean s), ht, pyStrip_idem]

/-! ## Theorems: verification session -/

/-- A repairable attempt (compile marker seen, attempts remaining) recurses
with the repaired code substituted and the repair counters advanced. -/
theorem sessionAux_repair_step (script : Nat → ExecOutcome)
    (fixPoc : List Char → List Char → List Char)
    (judge : List Char → List Char × List Char) (pocName : List Char)
    (fuel attempt : Nat) (code : List Char) (recorded fixes : Nat)
    (lastF : Option (List Char)) (fs : List (List Char)) (out : List Char)
    (hs : script attempt = .finished out)
    (he : isCompileError out = true) :
    sessionAux script fixPoc judge pocName (fuel + 1) attempt code recorded
        fixes lastF fs
      = sessionAux script fixPoc judge pocName fuel (attempt + 1)
          (fixPoc code out) (attempt + 1) (fixes + 1)
          (some (fixPoc code out)) (copyIn fs pocName) := by
  simp [sessionAux, hs, he]

/-- A clean run (no compile marker) ends the loop with the AI judge's
classification, at any remaining-fuel level. -/
theorem sessionAux_judged_stop (script : Nat → ExecOutcome)
    (fixPoc : List Char → List Char → List Char)
    (judge : List Char → List Char × List Char) (pocName : List Char)
    (fuel attempt : Nat) (code : List Char) (recorded fixes : Nat)
    (lastF : Option (List Char)) (fs : List (List Char)) (out : List Char)
    (hs : script attempt = .finished out)
    (he : isCompileError out = false) :
    sessionAux script fixPoc judge pocName fuel attempt code recorded
        fixes lastF fs
      = ⟨.judged (judge out).1 (judge out).2, out, recorded, fixes, lastF,
          code, attempt + 1, copyIn fs pocName⟩ := by
  cases fuel <;> simp [sessionAux, hs, he]

/-- C4: when the build/execute facility reports a compile/environment
marker on the first two attempts and a clean run on the third, the session
makes exactly two repair calls, records `fix_attempts = 2`, and terminates
classified with the AI judge's verdict on the third output. -/
theorem claim_C4 (script : Nat → ExecOutcome)
    (fixPoc : List Char → List Char → List Char)
    (judge : List Char → List Char × List Char)
    (pocName code : List Char) (fs : List (List Char))
    (o0 o1 o2 : List Char)
    (h0 : script 0 = .finished o0) (h1 : script 1 = .finished o1)
    (h2 : script 2 = .finished o2)
    (e0 : isCompileError o0 = true) (e1 : isCompileError o1 = true)
    (e2 : isCompileError o2 = false) :
    (runSession script fixPoc judge pocName code fs).fixCalls = 2 ∧
    (runSession script fixPoc judge pocName code fs).fix_attempts = 2 ∧
    (runSession script fixPoc judge pocName code fs).status
      = .judged (judge o2).1 (judge o2).2 := by
  have hr : sessionAux script fixPoc judge pocName 8 0 code 0 0 none fs
      = ⟨.judged (judge o2).1 (judge o2).2, o2, 2, 2,
          some (fixPoc (fixPoc code o0) o1), fixPoc (fixPoc code o0) o1,
          3, copyIn (copyIn (copyIn fs pocName) pocName) pocName⟩ := by
    rw [show (8 : Nat) = 7 + 1 from rfl,
      sessionAux_repair_step script fixPoc judge pocName 7 0 code 0 0
        none fs o0 h0 e0,
      show (7 : Nat) = 6 + 1 from rfl,
      sessionAux_repair_step script fixPoc judge pocName 6 1
        (fixPoc code o0) 1 1 (some (fixPoc code o0)) (copyIn fs pocName)
        o1 h1 e1,
      sessionAux_judged_stop script fixPoc judge pocName 6 2
        (fixPoc (fixPoc code o0) o1) 2 2
        (some (fixPoc (fixPoc code o0) o1))
        (copyIn (copyIn fs pocName) pocName) o2 h2 e2]
  unfold runSession MAX_FIX_ATTEMPTS
  rw [hr]
  exact ⟨rfl, rfl, rfl⟩

/-- Witness for C4 with a concrete scripted facility: two outputs carrying
the `build failed` marker, then a clean `PASS` output. -/
theorem claim_C4_witness :
    ((fun n => if n < 2 then ExecOutcome.finished "build failed".data
        else ExecOutcome.finished "ok PASS".data) 0
      = ExecOutcome.finished "build failed".data ∧
     isCompileError "build failed".data = true ∧
     isCompileError "ok PASS".data = false) ∧
    ((runSession
        (fun n => if n < 2 then ExecOutcome.finished "build failed".data
          else ExecOutcome.finished "ok PASS".data)
        (fun c _ => c) (fun _ => ("SAFE_PASS".data, "defended".data))
        "p_test.go".data "code".data []).fixCalls = 2 ∧
     (runSession
        (fun n => if n < 2 then ExecOutcome.finished "build failed".data
          else ExecOutcome.finished "ok PASS".data)
        (fun c _ => c) (fun _ => ("SAFE_PASS".data, "defended".data))
        "p_test.go".data "code".data []).fix_attempts = 2 ∧
     (runSession
        (fun n => if n < 2 then ExecOutcome.finished "build failed".data
          else ExecOutcome.finished "ok PASS".data)
        (fun c _ => c) (fun _ => ("SAFE_PASS".data, "defended".data))
        "p_test.go".data "code".data []).status
      = .judged ((fun (_ : List Char) =>
          ("SAFE_PASS".data, "defended".data)) "ok PASS".data).1
          ((fun (_ : List Char) =>
          ("SAFE_PASS".data, "defended".data)) "ok PASS".data).2) :=
  ⟨⟨rfl, by decide, by decide⟩,
    claim_C4
      (fun n => if n < 2 then ExecOutcome.finished "build failed".data
        else ExecOutcome.finished "ok PASS".data)
      (fun c _ => c) (fun _ => ("SAFE_PASS".data, "defended".data))
      "p_test.go".data "code".data []
      "build failed".data "build failed".data "ok PASS".data
      rfl rfl rfl (by decide) (by decide) (by decide)⟩

/-- `copyIn` is idempotent: copying the same file name twice leaves the
same directory contents as copying it once. -/
theorem copyIn_idem (fs : List (List Char)) (n : List Char) :
    copyIn (copyIn fs n) n = copyIn fs n := by
  by_cases h : n ∈ fs
  · simp [copyIn, h]
  · simp [copyIn, h]

/-- Throughout the attempt loop the target directory holds exactly the
initial files plus (one copy of) the PoC file. -/
theorem sessionAux_targetFiles (script : Nat → ExecOutcome)
    (fixPoc : List Char → List Char → List Char)
    (judge : List Char → List Char × List Char) (pocName : List Char) :
    ∀ fuel attempt code recorded fixes lastF fs,
      (sessionAux script fixPoc judge pocName fuel attempt code recorded
        fixes lastF fs).targetFiles = copyIn fs pocName := by
  intro fuel
  induction fuel with
  | zero =>
      intro attempt code recorded fixes lastF fs
      cases hs : script attempt with
      | timeout => simp [sessionAux, hs]
      | finished out =>
          by_cases he : isCompileError out <;> simp [sessionAux, hs, he]
  | succ fuel ih =>
      intro attempt code recorded fixes lastF fs
      cases hs : script attempt with
      | timeout => simp [sessionAux, hs]
      | finished out =>
          by_cases he : isCompileError out
          · simp only [sessionAux, hs, he, if_true]
            rw [ih]
            exact copyIn_idem fs pocName
          · simp [sessionAux, hs, he]

/-- C6: whatever terminal outcome the attempt loop reaches, the copy of
the PoC placed alongside the target sources is removed before the session
ends — when the collision-resistant PoC file name was not already present,
the target tree is exactly as before the session. -/
theorem claim_C6 (script : Nat → ExecOutcome)
    (fixPoc : List Char → List Char → List Char)
    (judge : List Char → List Char × List Char)
    (pocName code : List Char) (fs : List (List Char))
    (h : pocName ∉ fs) :
    (runSession script fixPoc judge pocName code fs).targetFiles = fs := by
  simp only [runSession]
  rw [sessionAux_targetFiles]
  simp only [copyIn, if_neg h, removeFile]
  exact List.erase_cons_head pocName fs

/-- Witness for C6: a timing-out session over an empty target directory
leaves the directory empty. -/
theorem claim_C6_witness :
    ("p_test.go".data ∉ ([] : List (List Char))) ∧
    (runSession (fun _ => ExecOutcome.timeout) (fun c _ => c)
      (fun _ => ("S".data, "r".data)) "p_test.go".data "code".data
      []).targetFiles = [] :=
  ⟨by decide, claim_C6 _ _ _ _ _ _ (by decide)⟩

/-- C8: when the build/execute invocation times out on every attempt, the
session ends in the `TIMEOUT` terminal state after exactly one attempt,
with no repair call made. -/
theorem claim_C8 (script : Nat → ExecOutcome)
    (fixPoc : List Char → List Char → List Char)
    (judge : List Char → List Char × List Char)
    (pocName code : List Char) (fs : List (List Char))
    (h : ∀ n, script n = ExecOutcome.timeout) :
    (runSession script fixPoc judge pocName code fs).status = .timedOut ∧
    (runSession script fixPoc judge pocName code fs).attemptsMade = 1 ∧
    (runSession script fixPoc judge pocName code fs).fixCalls = 0 := by
  have hr : sessionAux script fixPoc judge pocName 8 0 code 0 0 none fs
      = ⟨.timedOut, "Execution timed out.".data, 0, 0, none, code, 1,
          copyIn fs pocName⟩ := by
    rw [show (8 : Nat) = 7 + 1 from rfl]
    simp [sessionAux, h 0]
  unfold runSession MAX_FIX_ATTEMPTS
  rw [hr]
  exact ⟨rfl, rfl, rfl⟩

/-- Witness for C8 with the constant-timeout facility. -/
theorem claim_C8_witness :
    ((fun _ : Nat => ExecOutcome.timeout) 0 = ExecOutcome.timeout) ∧
    ((runSession (fun _ => ExecOutcome.timeout) (fun c _ => c)
        (fun _ => ("S".data, "r".data)) "p".data "c".data []).status
      = .timedOut ∧
     (runSession (fun _ => ExecOutcome.timeout) (fun c _ => c)
        (fun _ => ("S".data, "r".data)) "p".data "c".data
        []).attemptsMade = 1 ∧
     (runSession (fun _ => ExecOutcome.timeout) (fun c _ => c)
        (fun _ => ("S".data, "r".data)) "p".data "c".data []).fixCalls
      = 0) :=
  ⟨rfl, claim_C8 _ _ _ _ _ _ (fun _ => rfl)⟩

/-- Each repair overwrites the artifact before the next attempt, so the
artifact content always equals the last repaired code (given the incoming
invariant between the last-repair record and the current code). -/
theorem sessionAux_lastFixed (script : Nat → ExecOutcome)
    (fixPoc : List Char → List Char → List Char)
    (judge : List Char → List Char × List Char) (pocName : List Char) :
    ∀ fuel attempt code recorded fixes lastF fs,
      (∀ c, lastF = some c → code = c) →
      ∀ c, (sessionAux script fixPoc judge pocName fuel attempt code
          recorded fixes lastF fs).lastFixed = some c →
        (sessionAux script fixPoc judge pocName fuel attempt code recorded
          fixes lastF fs).artifact = c := by
  intro fuel
  induction fuel with
  | zero =>
      intro attempt code recorded fixes lastF fs h c
      cases hs : script attempt <;> simp [sessionAux, hs]
      · exact fun hl => h c hl
      · split
        · exact fun hl => h c hl
        · exact fun hl => h c hl
  | succ fuel ih =>
      intro attempt code recorded fixes lastF fs h c
      cases hs : script attempt with
      | timeout =>
          simp [sessionAux, hs]
          exact fun hl => h c hl
      | finished out =>
          by_cases he : isCompileError out
          · simp only [sessionAux, hs, he, if_true]
            exact ih (attempt + 1) (fixPoc code out) (attempt + 1)
              (fixes + 1) (some (fixPoc code out)) (copyIn fs pocName)
              (fun d hd => (Option.some.inj hd)) c
          · simp [sessionAux, hs, he]
            exact fun hl => h c hl

/-- C10: after a session in which at least one repair call occurred — the
last-repaired code being `c` — the retained artifact in the scratch
directory contains `c`, not the original drafted PoC text. -/
theorem claim_C10 (script : Nat → ExecOutcome)
    (fixPoc : List Char → List Char → List Char)
    (judge : List Char → List Char × List Char)
    (pocName code : List Char) (fs : List (List Char)) (c : List Char)
    (h : (runSession script fixPoc judge pocName code fs).lastFixed
      = some c) :
    (runSession script fixPoc judge pocName code fs).artifact = c :=
  sessionAux_lastFixed script fixPoc judge pocName MAX_FIX_ATTEMPTS 0 code
    0 0 none fs (fun _ hd => nomatch hd) c h

/-- Witness for C10: one repair rewrites the artifact to the repaired
code. -/
theorem claim_C10_witness :
    (runSession
        (fun n => if n = 0 then ExecOutcome.finished "build failed".data
          else ExecOutcome.finished "ok PASS".data)
        (fun _ _ => "fixedcode".data)
        (fun _ => ("S".data, "r".data)) "p".data "draft".data
        []).lastFixed = some "fixedcode".data ∧
    (runSession
        (fun n => if n = 0 then ExecOutcome.finished "build failed".data
          else ExecOutcome.finished "ok PASS".data)
        (fun _ _ => "fixedcode".data)
        (fun _ => ("S".data, "r".data)) "p".data "draft".data
        []).artifact = "fixedcode".data :=
  ⟨by decide, claim_C10 _ _ _ _ _ _ _ (by decide)⟩

/-! ## Theorems: per-project quota gate -/

/-- C3 (amended): once the project's call counter has reached
`MAX_CALLS_PER_PROJECT`, the findings loop exits at once — no further
`analyze` invocation (hence no governed call) happens for that project and
the remaining findings receive no recorded outcome. -/
theorem claim_C3_amended {F R : Type} (analyze : Nat → F → Nat × R)
    (count : Nat) (fs : List F) (h : MAX_CALLS_PER_PROJECT ≤ count) :
    findings_loop analyze count fs = ([], 0) := by
  cases fs with
  | nil => rfl
  | cons f rest => simp [findings_loop, h]

/-- Witness for C3 (amended) at the concrete ceiling. -/
theorem claim_C3_amended_witness :
    MAX_CALLS_PER_PROJECT ≤ 100 ∧
    findings_loop (fun c (_ : Nat) => (c + 1, c)) 100 [0]
      = (([] : List Nat), 0) :=
  ⟨by decide, claim_C3_amended _ 100 [0] (by decide)⟩

/-- C3 (counterexample to the claim as stated): with the counter at the
ceiling and one finding remaining, the loop records no outcome at all for
that finding — it is dropped, not recorded as skipped. -/
theorem claim_C3_counterexample :
    MAX_CALLS_PER_PROJECT ≤ 100 ∧
    ([0] : List Nat) ≠ [] ∧
    (findings_loop (fun c (_ : Nat) => (c + 1, c)) 100 [0]).1 = [] := by
  exact ⟨by decide, by decide, by decide⟩

end MassAudit
